import Mathlib

/-!
Shallow embedding of the structural price-feature engine in `src/app.py`
(class TechnicalPatternAnalyzer): support/resistance detection,
trend lines, consolidation zones, Fibonacci levels and the volume profile.

Modelling conventions:
* Prices and volumes are embedded as `ℚ` (the Python code manipulates
  floating-point numbers; every claim under study is about order, counting
  and exact rational arithmetic, not about rounding).
* A pandas `DataFrame` row becomes a `Bar`; the `DatetimeIndex` entry of a
  row becomes its integer `date` field (days).  `df.tail(n)` becomes
  `tailN`, `df['X'].max()/.min()` become `seriesMax`/`seriesMin` over the
  mapped column, and Python division is `ℚ` division (the source guards
  the denominators relevant to the claims; where it does not, `ℚ`
  division-by-zero totalises what would be a Python `ZeroDivisionError`).
-/

set_option maxRecDepth 40000

/-- One OHLCV row of the DataFrame: `{date, Open, High, Low, Close, Volume}`. -/
structure Bar where
  date : ℤ
  openPrice : ℚ
  high : ℚ
  low : ℚ
  close : ℚ
  volume : ℚ
deriving DecidableEq, Repr

instance : Inhabited Bar := ⟨⟨0, 0, 0, 0, 0, 0⟩⟩

/-- The time-ordered OHLCV series `self.data`. -/
abbrev Series := List Bar

/-- `df.tail(n)`: the last `n` rows (the whole series when it is shorter). -/
def tailN (s : List Bar) (n : Nat) : List Bar := s.drop (s.length - n)

/-- Pandas `series.max()` on a non-empty column (`0` on an empty one,
where pandas would return `NaN`; every use below is on a non-empty column). -/
def seriesMax : List ℚ → ℚ
  | [] => 0
  | h :: t => t.foldl max h

/-- Pandas `series.min()` on a non-empty column. -/
def seriesMin : List ℚ → ℚ
  | [] => 0
  | h :: t => t.foldl min h

/-- Sum of a rational column (`series.sum()`). -/
def seriesSum (l : List ℚ) : ℚ := l.foldr (· + ·) 0

/-!
## FibonacciCalculator — `detect_fibonacci_levels` (src/app.py lines 586-638)
-/

/-- Result dictionary of `detect_fibonacci_levels`; the retracement and
extension dictionaries keep their insertion order as ratio/price pairs. -/
structure FibLevels where
  swingHigh : ℚ
  swingLow : ℚ
  retracementLevels : List (ℚ × ℚ)
  extensionLevels : List (ℚ × ℚ)
  currentPrice : ℚ
  nearestRetracement : ℚ
  nearestExtension : ℚ
deriving DecidableEq, Repr

instance : Inhabited FibLevels := ⟨⟨0, 0, [], [], 0, 0, 0⟩⟩

/-- Python `min(values, key=lambda x: abs(x - target))`: first minimiser of
the absolute distance. -/
def nearestTo (target : ℚ) : List ℚ → ℚ
  | [] => 0
  | h :: t => t.foldl (fun best v => if |v - target| < |best - target| then v else best) h

/-- `detect_fibonacci_levels(lookback_period)`: `none` models the empty-dict
return for an undersized window. -/
def detectFibonacciLevels (s : Series) (lookback : Nat) : Option FibLevels :=
  let df := tailN s lookback
  if df.length < 50 then none
  else
    let swingHigh := seriesMax (df.map (·.high))
    let swingLow := seriesMin (df.map (·.low))
    let d := swingHigh - swingLow
    let retr : List (ℚ × ℚ) :=
      [(0, swingLow), (0.236, swingLow + d * 0.236), (0.382, swingLow + d * 0.382),
       (0.5, swingLow + d * 0.5), (0.618, swingLow + d * 0.618),
       (0.786, swingLow + d * 0.786), (1, swingHigh)]
    let ext : List (ℚ × ℚ) :=
      [(1.272, swingHigh + d * 0.272), (1.414, swingHigh + d * 0.414),
       (1.618, swingHigh + d * 0.618), (2, swingHigh + d * 1),
       (2.618, swingHigh + d * 1.618)]
    let currentPrice := (df.getLastD default).close
    some
      { swingHigh := swingHigh
        swingLow := swingLow
        retracementLevels := retr
        extensionLevels := ext
        currentPrice := currentPrice
        nearestRetracement := nearestTo currentPrice (retr.map Prod.snd)
        nearestExtension := nearestTo currentPrice (ext.map Prod.snd) }

/-!
## VolumeProfileBuilder — `detect_volume_profile` (src/app.py lines 642-738)

The fields `volume_std`, `volume_skew`, `volume_kurtosis` and the
high/low-volume node lists are derived from `numpy.std` / `scipy.stats`
(an irrational square root and external-library floating point); no claim
settled against the source depends on their values, so the embedding
carries every other field of the returned dictionary and omits those.
-/

/-- `np.linspace(lo, hi, num)`: `num` evenly spaced boundary points with
both endpoints included. -/
def linspace (lo hi : ℚ) (num : Nat) : List ℚ :=
  (List.range num).map fun k : ℕ => lo + (hi - lo) * (k : ℚ) / ((num - 1 : Nat) : ℚ)

/-- `np.argmax`: index of the first occurrence of the maximum (0 on `[]`). -/
def argmaxFirst (l : List ℚ) : Nat :=
  (l.enum.foldl
    (fun best cur => if best.2 < cur.2 then cur else best) (0, l.headD 0)).1

/-- Maximum of a non-empty list of naturals (`max(value_area_indices)`). -/
def natListMax (l : List Nat) : Nat := l.foldl max 0

/-- Minimum of a non-empty list of naturals (`min(value_area_indices)`). -/
def natListMin : List Nat → Nat
  | [] => 0
  | h :: t => t.foldl min h

/-- The `for idx in sorted_indices: ... if cumulative >= target: break` loop:
indices taken in order until the accumulated volume first reaches `target`. -/
def takeUntilVolume (vol : Nat → ℚ) (target : ℚ) : List Nat → ℚ → List Nat
  | [], _ => []
  | idx :: rest, cum =>
      let cum2 := cum + vol idx
      idx :: (if target ≤ cum2 then [] else takeUntilVolume vol target rest cum2)

/-- Result dictionary of `detect_volume_profile` (see the section comment
for the omitted standard-deviation-based fields). -/
structure VolumeProfile where
  pocPrice : ℚ
  pocVolume : ℚ
  valueAreaHigh : ℚ
  valueAreaLow : ℚ
  valueAreaPercentage : ℚ
  singlePrints : List ℚ
  volumeDistribution : List ℚ
  valueDistribution : List ℚ
  priceBins : List ℚ
  totalVolume : ℚ
deriving DecidableEq, Repr

instance : Inhabited VolumeProfile := ⟨⟨0, 0, 0, 0, 0, [], [], [], [], 0⟩⟩

/-- `detect_volume_profile()`: `none` models the empty-dict return for a
window of fewer than 20 bars.  `np.argsort(volume_at_price)[::-1]` is
embedded as a stable descending sort of the bin indices by volume (numpy
leaves the relative order of equal-volume bins unspecified; no claim
depends on that tie order). -/
def detectVolumeProfile (s : Series) : Option VolumeProfile :=
  let df := tailN s 100
  if df.length < 20 then none
  else
    let lows := df.map (·.low)
    let highs := df.map (·.high)
    let priceRange := seriesMax highs - seriesMin lows
    let numBins : Nat := 70
    let bins := linspace (seriesMin lows) (seriesMax highs) numBins
    let binVolume : Nat → ℚ := fun i =>
      seriesSum ((df.filter fun b =>
        bins.getD i 0 ≤ b.close ∧ b.close < bins.getD (i + 1) 0).map (·.volume))
    let binValue : Nat → ℚ := fun i =>
      let masked := df.filter fun b =>
        bins.getD i 0 ≤ b.close ∧ b.close < bins.getD (i + 1) 0
      if masked.isEmpty then 0
      else seriesSum (masked.map (·.volume)) *
        (seriesSum (masked.map (·.close)) / (masked.length : ℚ))
    let volumeAtPrice := (List.range (bins.length - 1)).map binVolume
    let valueAreaVolumes := (List.range (bins.length - 1)).map binValue
    let pocIdx := argmaxFirst volumeAtPrice
    let pocPrice := (bins.getD pocIdx 0 + bins.getD (pocIdx + 1) 0) / 2
    let totalVolume := seriesSum volumeAtPrice
    let targetVolume := totalVolume * 0.70
    let sortedIndices :=
      (List.range volumeAtPrice.length).mergeSort fun i j =>
        decide (volumeAtPrice.getD j 0 ≤ volumeAtPrice.getD i 0)
    let valueAreaIndices :=
      takeUntilVolume (fun i => volumeAtPrice.getD i 0) targetVolume sortedIndices 0
    let valueAreaHigh := bins.getD (natListMax valueAreaIndices + 1) 0
    let valueAreaLow := bins.getD (natListMin valueAreaIndices) 0
    let volumeMean := totalVolume / (volumeAtPrice.length : ℚ)
    let singlePrints :=
      ((bins.dropLast).zip volumeAtPrice).filterMap fun p =>
        if p.2 < volumeMean * 0.3 then some p.1 else none
    some
      { pocPrice := pocPrice
        pocVolume := volumeAtPrice.getD pocIdx 0
        valueAreaHigh := valueAreaHigh
        valueAreaLow := valueAreaLow
        valueAreaPercentage := (valueAreaHigh - valueAreaLow) / priceRange * 100
        singlePrints := singlePrints
        volumeDistribution := volumeAtPrice
        valueDistribution := valueAreaVolumes
        priceBins := bins
        totalVolume := totalVolume }

/-!
## PivotExtractor + LevelMerger — `detect_support_resistance`
(src/app.py lines 276-380)
-/

/-- A support/resistance level record `{price, date, touches, strength}`. -/
structure Level where
  price : ℚ
  date : ℤ
  touches : Nat
  strength : ℚ
deriving DecidableEq, Repr

/-- Result dictionary of `detect_support_resistance`; `currentPrice` is
`none` on the undersized early return, whose dictionary lacks the
`current_price` key. -/
structure SRResult where
  support : List Level
  resistance : List Level
  currentPrice : Option ℚ
deriving DecidableEq, Repr

/-- Bars of the 11-bar symmetric window `df.iloc[i-5 : i+6]`. -/
def pivotWindow (df : List Bar) (i : Nat) : List Bar :=
  (df.drop (i - 5)).take 11

/-- The pivot-low scan: indices `window ≤ i < len - window` whose Low equals
the window minimum become candidate levels with one touch, strength 1. -/
def pivotLowCandidates (df : List Bar) : List Level :=
  (List.range df.length).filterMap fun i =>
    if 5 ≤ i ∧ i < df.length - 5 ∧
        (df.getD i default).low = seriesMin ((pivotWindow df i).map (·.low)) then
      some ⟨(df.getD i default).low, (df.getD i default).date, 1, 1⟩
    else none

/-- The pivot-high scan, symmetric to `pivotLowCandidates`. -/
def pivotHighCandidates (df : List Bar) : List Level :=
  (List.range df.length).filterMap fun i =>
    if 5 ≤ i ∧ i < df.length - 5 ∧
        (df.getD i default).high = seriesMax ((pivotWindow df i).map (·.high)) then
      some ⟨(df.getD i default).high, (df.getD i default).date, 1, 1⟩
    else none

/-- The sequential fold of `merge_levels`: the accumulator is kept reversed
(head = Python's `merged[-1]`) and restored at the end. -/
def mergeLevelsFold (threshold : ℚ) : List Level → List Level → List Level
  | acc, [] => acc.reverse
  | [], level :: rest => mergeLevelsFold threshold [level] rest
  | last :: accTail, level :: rest =>
      let priceDiff := |level.price - last.price| / last.price
      if priceDiff ≤ threshold then
        let totalTouches := last.touches + level.touches
        mergeLevelsFold threshold
          ({ last with
              price := (last.price * last.touches + level.price * level.touches) /
                (totalTouches : ℚ)
              touches := totalTouches
              strength := min (last.strength + 0.2) 3.0 } :: accTail) rest
      else mergeLevelsFold threshold (level :: last :: accTail) rest

/-- `merge_levels(levels, threshold_pct)`: sort by price ascending
(Python's stable `list.sort`), then fold nearby candidates together. -/
def mergeLevels (threshold : ℚ) (levels : List Level) : List Level :=
  mergeLevelsFold threshold []
    (levels.mergeSort fun a b => decide (a.price ≤ b.price))

/-- `count_touches(levels, price_series)`: recount each level's touches over
the full column within the fixed 1% tolerance, reset its strength to
`min(touches*0.5, 3.0)`, and keep levels with at least `min_touches`. -/
def countTouches (minTouches : Nat) (prices : List ℚ) (levels : List Level) :
    List Level :=
  (levels.map fun level =>
    let touches :=
      (prices.filter fun p => decide (|p - level.price| / level.price ≤ 0.01)).length
    { level with touches := touches, strength := min ((touches : ℚ) * 0.5) 3.0 }
  ).filter fun level => minTouches ≤ level.touches

/-- Python's `levels.sort(key=strength, reverse=True)`: a stable sort by
strength descending. -/
def sortByStrengthDesc (levels : List Level) : List Level :=
  levels.mergeSort fun a b => decide (b.strength ≤ a.strength)

/-- `detect_support_resistance(lookback_period, threshold, min_touches)`. -/
def detectSupportResistance (s : Series) (lookback : Nat) (threshold : ℚ)
    (minTouches : Nat) : SRResult :=
  let df := tailN s lookback
  if df.length < 20 then ⟨[], [], none⟩
  else
    let supportLevels := countTouches minTouches (df.map (·.low))
      (mergeLevels threshold (pivotLowCandidates df))
    let resistanceLevels := countTouches minTouches (df.map (·.high))
      (mergeLevels threshold (pivotHighCandidates df))
    { support := (sortByStrengthDesc supportLevels).take 5
      resistance := (sortByStrengthDesc resistanceLevels).take 5
      currentPrice := some (df.getLastD default).close }

/-!
## TrendLineDetector — `detect_trend_lines` (src/app.py lines 382-498)
-/

/-- A swing point `{date, price}`. -/
structure SwingPoint where
  date : ℤ
  price : ℚ
deriving DecidableEq, Repr

/-- Direction tag of a trend line (the `'type'` string field). -/
inductive TrendDirection
  | ascending
  | descending
deriving DecidableEq, Repr

/-- A trend-line record. -/
structure TrendLine where
  startDate : ℤ
  endDate : ℤ
  startPrice : ℚ
  endPrice : ℚ
  slope : ℚ
  touches : Nat
  direction : TrendDirection
deriving DecidableEq, Repr

/-- Swing lows: indices `2 ≤ i ≤ len-3` whose Low is strictly below the
Lows one and two positions on each side. -/
def swingLows (df : List Bar) : List SwingPoint :=
  (List.range df.length).filterMap fun i =>
    if 2 ≤ i ∧ i < df.length - 2 ∧
        (df.getD i default).low < (df.getD (i - 1) default).low ∧
        (df.getD i default).low < (df.getD (i + 1) default).low ∧
        (df.getD i default).low < (df.getD (i - 2) default).low ∧
        (df.getD i default).low < (df.getD (i + 2) default).low then
      some ⟨(df.getD i default).date, (df.getD i default).low⟩
    else none

/-- Swing highs, symmetric to `swingLows` with strict greater-than. -/
def swingHighs (df : List Bar) : List SwingPoint :=
  (List.range df.length).filterMap fun i =>
    if 2 ≤ i ∧ i < df.length - 2 ∧
        (df.getD i default).high > (df.getD (i - 1) default).high ∧
        (df.getD i default).high > (df.getD (i + 1) default).high ∧
        (df.getD i default).high > (df.getD (i - 2) default).high ∧
        (df.getD i default).high > (df.getD (i + 2) default).high then
      some ⟨(df.getD i default).date, (df.getD i default).high⟩
    else none

/-- All ordered pairs `(l[i], l[j])` with `i < j`, in the double-loop order
of the source. -/
def ordPairs : List α → List (α × α)
  | [] => []
  | x :: xs => (xs.map fun y => (x, y)) ++ ordPairs xs

/-- Touch count of a line through `p1` with slope `slope`: the two defining
points are excluded by date equality, and another swing counts when its
price is within 2% of the price the line predicts for its date. -/
def lineTouches (swings : List SwingPoint) (p1 p2 : SwingPoint) (slope : ℚ) : Nat :=
  2 + (swings.filter fun p =>
    decide (¬(p.date = p1.date ∨ p.date = p2.date) ∧
      |p.price - (p1.price + slope * ((p.date - p1.date : ℤ) : ℚ))| /
        (p1.price + slope * ((p.date - p1.date : ℤ) : ℚ)) < 0.02)).length

/-- The ascending-trend double loop over swing lows sorted by date. -/
def ascendingTrends (lows : List SwingPoint) : List TrendLine :=
  if lows.length ≥ 2 then
    let sorted := lows.mergeSort fun a b => decide (a.date ≤ b.date)
    (ordPairs sorted).filterMap fun pair =>
      let low1 := pair.1
      let low2 := pair.2
      if low2.price > low1.price then
        let timeDiff : ℤ := low2.date - low1.date
        if 0 < timeDiff then
          let slope := (low2.price - low1.price) / (timeDiff : ℚ)
          let touches := lineTouches sorted low1 low2 slope
          if touches ≥ 2 then
            some ⟨low1.date, low2.date, low1.price, low2.price, slope, touches,
              .ascending⟩
          else none
        else none
      else none
  else []

/-- The descending-trend double loop over swing highs sorted by date. -/
def descendingTrends (highs : List SwingPoint) : List TrendLine :=
  if highs.length ≥ 2 then
    let sorted := highs.mergeSort fun a b => decide (a.date ≤ b.date)
    (ordPairs sorted).filterMap fun pair =>
      let high1 := pair.1
      let high2 := pair.2
      if high2.price < high1.price then
        let timeDiff : ℤ := high2.date - high1.date
        if 0 < timeDiff then
          let slope := (high2.price - high1.price) / (timeDiff : ℚ)
          let touches := lineTouches sorted high1 high2 slope
          if touches ≥ 2 then
            some ⟨high1.date, high2.date, high1.price, high2.price, slope, touches,
              .descending⟩
          else none
        else none
      else none
  else []

/-- Result dictionary of `detect_trend_lines`. -/
structure TrendResult where
  ascending : List TrendLine
  descending : List TrendLine
deriving DecidableEq, Repr

/-- `detect_trend_lines(lookback_period)`: both trend lists sorted by touch
count descending (stable) and truncated to the top 3. -/
def detectTrendLines (s : Series) (lookback : Nat) : TrendResult :=
  let df := tailN s lookback
  if df.length < 30 then ⟨[], []⟩
  else
    { ascending :=
        ((ascendingTrends (swingLows df)).mergeSort fun a b =>
          decide (b.touches ≤ a.touches)).take 3
      descending :=
        ((descendingTrends (swingHighs df)).mergeSort fun a b =>
          decide (b.touches ≤ a.touches)).take 3 }

/-!
## ConsolidationZoneDetector — `detect_consolidation_zones`
(src/app.py lines 500-584)

The boolean low-volatility mask of the source is
`volatility_ratio < volatility_ratio.quantile(0.3)` where
`volatility_ratio = rolling_std(Close,20) / rolling_mean(Close,20)` —
a floating-point square root per bar, not exactly representable over `ℚ`.
Everything after that comparison is exact, so the embedding takes the mask
as an input (`lowVol`, one boolean per row, `False` on the rows where the
rolling statistics are still NaN) and the theorems below quantify over
every mask; they therefore cover the mask the source computes.

Zone start/end are kept as row positions: the source stores
`df.index[group[0]]` / `df.index[group[-1]]` and recovers the position with
`df.index.get_loc`, which on the strictly increasing datetime index of a
MarketSeries is the stored position itself.
-/

/-- Breakout classification (`breakout_direction`); `unresolved` models the
initial `None`. -/
inductive Breakout
  | bullish
  | bearish
  | consolidating
  | unresolved
deriving DecidableEq, Repr

/-- A consolidation-zone record.  `rangePct` is stored multiplied by 100
(a percentage), exactly as the source stores `range_pct * 100`. -/
structure Zone where
  startIdx : Nat
  endIdx : Nat
  support : ℚ
  resistance : ℚ
  rangePct : ℚ
  durationDays : Nat
  volumeAvg : ℚ
  breakout : Breakout
deriving DecidableEq, Repr

/-- The backward scan `while start > 0 and low_vol_periods.iloc[start-1]:
start -= 1`, started at `i`. -/
def runStart (lv : List Bool) : Nat → Nat
  | 0 => 0
  | i + 1 => if lv.getD i false then runStart lv i else i + 1

/-- One iteration of the grouping loop: state is
(collected groups, current group). -/
def groupStep (lv : List Bool) (st : List (List Nat) × List Nat) (i : Nat) :
    List (List Nat) × List Nat :=
  if lv.getD i false ∧ 0 < i ∧ lv.getD (i - 1) false then
    (st.1,
      if st.2.isEmpty then List.range' (runStart lv i) (i + 1 - runStart lv i)
      else st.2 ++ [i])
  else
    (if ¬st.2.isEmpty ∧ 10 ≤ st.2.length then st.1 ++ [st.2] else st.1, [])

/-- The full grouping pass over `range(len(low_vol_periods))`, with the
final flush of `current_group` after the loop. -/
def lowVolGroups (lv : List Bool) : List (List Nat) :=
  let st := (List.range lv.length).foldl (groupStep lv) ([], [])
  if ¬st.2.isEmpty ∧ 10 ≤ st.2.length then st.1 ++ [st.2] else st.1

/-- Zone construction for each retained group: support/resistance are the
extreme Low/High over the group's rows, and the zone is kept only when
`(resistance - support) / support ≤ threshold`.  Breakout starts `None`. -/
def zonesFromGroups (df : List Bar) (threshold : ℚ) (groups : List (List Nat)) :
    List Zone :=
  groups.filterMap fun group =>
    if 0 < group.length then
      let zoneData := group.map fun i => df.getD i default
      let support := seriesMin (zoneData.map (·.low))
      let resistance := seriesMax (zoneData.map (·.high))
      let rangePct := (resistance - support) / support
      if rangePct ≤ threshold then
        some
          { startIdx := group.headD 0
            endIdx := group.getLastD 0
            support := support
            resistance := resistance
            rangePct := rangePct * 100
            durationDays := group.length
            volumeAvg := seriesSum (zoneData.map (·.volume)) / (group.length : ℚ)
            breakout := .unresolved }
      else none
    else none

/-- The second pass over the zones: classify the breakout from the 5 bars
`df.iloc[end_idx+1 : end_idx+6]` when they exist. -/
def classifyBreakout (df : List Bar) (zone : Zone) : Zone :=
  if zone.endIdx + 5 < df.length then
    let post := (df.drop (zone.endIdx + 1)).take 5
    if seriesMax (post.map (·.close)) > zone.resistance * 1.02 then
      { zone with breakout := .bullish }
    else if seriesMin (post.map (·.close)) < zone.support * 0.98 then
      { zone with breakout := .bearish }
    else { zone with breakout := .consolidating }
  else zone

/-- `detect_consolidation_zones(lookback_period, threshold)` as a function
of the already-computed low-volatility mask (see the section comment). -/
def detectConsolidationZonesFrom (df : List Bar) (lowVol : List Bool)
    (threshold : ℚ) : List Zone :=
  if df.length < 20 then []
  else (zonesFromGroups df threshold (lowVolGroups lowVol)).map (classifyBreakout df)

/-!
## Concrete inputs used by the evaluation and witness theorems
-/

/-- Concrete 20-bar window for the volume-profile evaluations: Low 90,
High 110, Volume 1 everywhere; 19 bars close at 100 and the last bar closes
at the window's maximum High 110. -/
def vpSeries : Series :=
  (List.range 20).map fun i =>
    if i = 19 then ⟨(i : ℤ), 100, 110, 90, 110, 1⟩
    else ⟨(i : ℤ), 100, 110, 90, 100, 1⟩

/-- Flat 50-bar series (every price 100): a degenerate Fibonacci window in
which the maximum High equals the minimum Low. -/
def fibFlatSeries : Series :=
  (List.range 50).map fun i => ⟨(i : ℤ), 100, 100, 100, 100, 1⟩

/-- Non-degenerate 50-bar series: Low 90, High 110, Close 100. -/
def fibSeries : Series :=
  (List.range 50).map fun i => ⟨(i : ℤ), 100, 110, 90, 100, 1⟩

/-- 20-bar series with pivot lows at price 90 on bars 7 and 12 and flat
Highs at 105, so it yields one support and one resistance level. -/
def srSeries : Series :=
  (List.range 20).map fun i =>
    if i = 7 ∨ i = 12 then ⟨(i : ℤ), 100, 105, 90, 100, 1⟩
    else ⟨(i : ℤ), 100, 105, 100, 100, 1⟩

/-- 30-bar series with swing lows at bars 5 (price 90) and 20 (price 95)
and flat Highs, so it yields exactly one ascending trend line. -/
def trendSeries : Series :=
  (List.range 30).map fun i =>
    if i = 5 then ⟨(i : ℤ), 100, 110, 90, 100, 1⟩
    else if i = 20 then ⟨(i : ℤ), 100, 110, 95, 100, 1⟩
    else ⟨(i : ℤ), 100, 110, 100, 100, 1⟩

/-- The ascending trend line produced by trendSeries. -/
def trendWitnessLine : TrendLine := ⟨5, 20, 90, 95, 1/3, 2, .ascending⟩

/-- 30-bar consolidation scenario: 20 flat bars at 100 followed by 10 bars
at 110 (a bullish breakout above 100·1.02). -/
def consSeries : Series :=
  (List.range 30).map fun i =>
    if i < 20 then ⟨(i : ℤ), 100, 100, 100, 100, 1⟩
    else ⟨(i : ℤ), 110, 110, 110, 110, 1⟩

/-- Low-volatility mask marking the first 20 rows of consSeries. -/
def consMask : List Bool := (List.range 30).map fun i => decide (i < 20)

/-- The consolidation zone consSeries and consMask produce. -/
def consZone : Zone := ⟨0, 19, 100, 100, 0, 20, 1, .bullish⟩

/-!
## Helper lemmas
-/

theorem tailN_length_le (s : List Bar) (n : Nat) : (tailN s n).length ≤ s.length := by
  simp [tailN]

theorem foldl_max_lt_iff (t : ℚ) (l : List ℚ) :
    ∀ a : ℚ, t < l.foldl max a ↔ t < a ∨ ∃ x ∈ l, t < x := by
  induction l with
  | nil => simp
  | cons b l ih =>
      intro a
      rw [List.foldl_cons, ih (max a b), lt_max_iff]
      simp [or_assoc]

theorem seriesMax_gt_iff (l : List ℚ) (h : l ≠ []) (t : ℚ) :
    t < seriesMax l ↔ ∃ x ∈ l, t < x := by
  match l with
  | x :: xs => rw [seriesMax, foldl_max_lt_iff]; simp

theorem foldl_min_gt_iff (t : ℚ) (l : List ℚ) :
    ∀ a : ℚ, l.foldl min a < t ↔ a < t ∨ ∃ x ∈ l, x < t := by
  induction l with
  | nil => simp
  | cons b l ih =>
      intro a
      rw [List.foldl_cons, ih (min a b), min_lt_iff]
      simp [or_assoc]

theorem seriesMin_lt_iff (l : List ℚ) (h : l ≠ []) (t : ℚ) :
    seriesMin l < t ↔ ∃ x ∈ l, x < t := by
  match l with
  | x :: xs => rw [seriesMin, foldl_min_gt_iff]; simp

/-!
## Claim theorems
-/

/-- C10: the volume-profile builder has an undocumented minimum input size:
whenever the last-100-bar window holds fewer than 20 bars it returns the
empty result (the empty dictionary, embedded as none) instead of a profile. -/
theorem volumeProfile_undersized_returns_empty (s : Series)
    (h : (tailN s 100).length < 20) : detectVolumeProfile s = none := by
  simp [detectVolumeProfile, h]

/-- Witness for C10 at the empty series. -/
theorem volumeProfile_undersized_returns_empty_witness :
    detectVolumeProfile [] = none :=
  volumeProfile_undersized_returns_empty [] (by decide)

/-- C5: every detector is total and returns its documented empty result on
undersized input: fewer than 20 bars gives empty support/resistance lists,
fewer than 30 bars gives empty trend-line lists, and fewer than 50 bars
gives the empty Fibonacci result. -/
theorem detectors_undersized_return_empty (s : Series) (lookback : Nat)
    (threshold : ℚ) (minTouches : Nat) :
    (s.length < 20 →
      detectSupportResistance s lookback threshold minTouches = ⟨[], [], none⟩) ∧
    (s.length < 30 → detectTrendLines s lookback = ⟨[], []⟩) ∧
    (s.length < 50 → detectFibonacciLevels s lookback = none) := by
  refine ⟨fun h => ?_, fun h => ?_, fun h => ?_⟩
  · have hl : (tailN s lookback).length < 20 :=
      lt_of_le_of_lt (tailN_length_le s lookback) h
    simp [detectSupportResistance, hl]
  · have hl : (tailN s lookback).length < 30 :=
      lt_of_le_of_lt (tailN_length_le s lookback) h
    simp [detectTrendLines, hl]
  · have hl : (tailN s lookback).length < 50 :=
      lt_of_le_of_lt (tailN_length_le s lookback) h
    simp [detectFibonacciLevels, hl]

/-- Witness for C5 at a concrete undersized series. -/
theorem detectors_undersized_return_empty_witness :
    detectSupportResistance [default] 100 0.02 2 = ⟨[], [], none⟩ ∧
    detectTrendLines [default] 100 = ⟨[], []⟩ ∧
    detectFibonacciLevels [default] 100 = none :=
  ⟨(detectors_undersized_return_empty [default] 100 0.02 2).1 (by decide),
   (detectors_undersized_return_empty [default] 100 0.02 2).2.1 (by decide),
   (detectors_undersized_return_empty [default] 100 0.02 2).2.2 (by decide)⟩

/-- C2 counterexample: on a 20-bar window the per-bin volume sequence has
69 entries, not 70 — np.linspace(lo, hi, 70) produces 70 boundary points
and the loop over range(len(bins) - 1) builds one volume per interval. -/
theorem volumeProfile_bin_count_counterexample :
    ((detectVolumeProfile vpSeries).getD default).volumeDistribution.length ≠ 70 := by
  decide

/-- C2 amended: the volume profile partitions [min Low, max High] of the
last 100 bars with 70 equally spaced boundary points, hence 69 equal-width
bins, and the per-bin volume sequence it builds has 69 entries. -/
theorem volumeProfile_bin_count (s : Series) (p : VolumeProfile)
    (hp : detectVolumeProfile s = some p) :
    p.priceBins.length = 70 ∧ p.volumeDistribution.length = 69 := by
  unfold detectVolumeProfile at hp
  by_cases h : (tailN s 100).length < 20
  · simp [h] at hp
  · rw [if_neg h] at hp
    obtain rfl := (Option.some.inj hp).symm
    constructor
    · show (linspace _ _ 70).length = 70
      simp [linspace]
    · show ((List.range ((linspace _ _ 70).length - 1)).map _).length = 69
      simp [linspace]

/-- Witness for C2's amended statement at a concrete 20-bar window. -/
theorem volumeProfile_bin_count_witness :
    ((detectVolumeProfile vpSeries).getD default).priceBins.length = 70 ∧
    ((detectVolumeProfile vpSeries).getD default).volumeDistribution.length = 69 :=
  volumeProfile_bin_count vpSeries ((detectVolumeProfile vpSeries).getD default) rfl

/-- C1 evaluation at the failing input: the binned volumes sum to 19 while
the lookback window's total volume is 20 — every bin, the last included,
is the half-open interval from one boundary to the next, so the bar whose
Close equals the window's maximum High (110 = bins[69]) falls in no bin. -/
theorem volumeProfile_conservation_failing_eval :
    seriesSum ((detectVolumeProfile vpSeries).getD default).volumeDistribution = 19 ∧
    seriesSum ((tailN vpSeries 100).map (·.volume)) = 20 ∧
    seriesSum ((detectVolumeProfile vpSeries).getD default).volumeDistribution ≠
      seriesSum ((tailN vpSeries 100).map (·.volume)) := by
  refine ⟨?_, ?_, ?_⟩ <;> with_unfolding_all decide

/-- C4 counterexample: on a flat 50-bar window (every price 100) the swing
low equals the swing high and all seven retracement prices coincide, so
they are not strictly increasing. -/
theorem fibonacci_strict_increase_counterexample :
    fibFlatSeries.length = 50 ∧
    ¬ List.Chain' (· < ·)
      (((detectFibonacciLevels fibFlatSeries 100).getD default).retracementLevels.map
        Prod.snd) := by
  refine ⟨by decide, ?_⟩
  have h : ((detectFibonacciLevels fibFlatSeries 100).getD default).retracementLevels.map
      Prod.snd = [100, 100, 100, 100, 100, 100, 100] := by
    with_unfolding_all rfl
  rw [h]
  simp [List.chain'_cons]

/-- C4 amended: for every input series whose lookback window holds at least
50 bars and is non-degenerate (its minimum Low is strictly below its
maximum High, equivalently swing_low < swing_high), the Fibonacci
retracement prices are strictly increasing as the ratio increases through
0.0, 0.236, 0.382, 0.5, 0.618, 0.786, 1.0.  On a flat window all the
retracement prices coincide. -/
theorem fibonacci_retracement_strict_mono (s : Series) (lookback : Nat)
    (f : FibLevels) (hf : detectFibonacciLevels s lookback = some f)
    (hlt : f.swingLow < f.swingHigh) :
    List.Chain' (· < ·) (f.retracementLevels.map Prod.snd) := by
  unfold detectFibonacciLevels at hf
  by_cases h : (tailN s lookback).length < 50
  · simp [h] at hf
  · rw [if_neg h] at hf
    obtain rfl := (Option.some.inj hf).symm
    simp only [List.map_cons, List.map_nil, List.chain'_cons, List.chain'_singleton,
      and_true] at hlt ⊢
    set lo := seriesMin ((tailN s lookback).map (·.low)) with hlo
    set hi := seriesMax ((tailN s lookback).map (·.high)) with hhi
    refine ⟨?_, ?_, ?_, ?_, ?_, ?_⟩ <;> nlinarith [hlt]

/-- Witness for C4's amended statement at a non-degenerate 50-bar window. -/
theorem fibonacci_retracement_strict_mono_witness :
    List.Chain' (· < ·)
      (((detectFibonacciLevels fibSeries 100).getD default).retracementLevels.map
        Prod.snd) :=
  fibonacci_retracement_strict_mono fibSeries 100
    ((detectFibonacciLevels fibSeries 100).getD default)
    (by with_unfolding_all rfl) (by with_unfolding_all decide)

theorem pairwise_sortByStrengthDesc (levels : List Level) :
    (sortByStrengthDesc levels).Pairwise fun a b => b.strength ≤ a.strength := by
  have h := @List.sorted_mergeSort Level
    (fun a b : Level => decide (b.strength ≤ a.strength))
    (fun a b c h1 h2 => by
      simp only [decide_eq_true_eq] at *
      exact le_trans h2 h1)
    (fun a b => by simpa using le_total b.strength a.strength)
    levels
  exact List.Pairwise.imp (fun hab => by simpa using hab) h

theorem mem_sortByStrengthDesc (levels : List Level) (l : Level) :
    l ∈ sortByStrengthDesc levels ↔ l ∈ levels := by
  unfold sortByStrengthDesc
  exact (List.mergeSort_perm levels _).mem_iff

theorem mem_countTouches_touches (minTouches : Nat) (prices : List ℚ)
    (levels : List Level) (l : Level)
    (hl : l ∈ countTouches minTouches prices levels) : minTouches ≤ l.touches := by
  unfold countTouches at hl
  exact of_decide_eq_true (List.mem_filter.1 hl).2

theorem finalLevels_invariants (minTouches : Nat) (prices : List ℚ)
    (levels : List Level) :
    (((sortByStrengthDesc (countTouches minTouches prices levels)).take 5).Pairwise
      fun a b => b.strength ≤ a.strength) ∧
    ((sortByStrengthDesc (countTouches minTouches prices levels)).take 5).length ≤ 5 ∧
    ∀ l ∈ (sortByStrengthDesc (countTouches minTouches prices levels)).take 5,
      minTouches ≤ l.touches := by
  refine ⟨List.Pairwise.sublist (List.take_sublist _ _)
    (pairwise_sortByStrengthDesc _), List.length_take_le _ _, fun l hl => ?_⟩
  exact mem_countTouches_touches _ _ _ _
    ((mem_sortByStrengthDesc _ _).1 (List.mem_of_mem_take hl))

/-- C6: for every input series and parameters, each of the support and
resistance lists returned by the level merger is sorted by strength in
descending order, holds at most 5 levels, and every retained level has at
least min_touches touches. -/
theorem supportResistance_output_invariants (s : Series) (lookback : Nat)
    (threshold : ℚ) (minTouches : Nat) :
    ((detectSupportResistance s lookback threshold minTouches).support.Pairwise
      fun a b => b.strength ≤ a.strength) ∧
    (detectSupportResistance s lookback threshold minTouches).support.length ≤ 5 ∧
    (∀ l ∈ (detectSupportResistance s lookback threshold minTouches).support,
      minTouches ≤ l.touches) ∧
    ((detectSupportResistance s lookback threshold minTouches).resistance.Pairwise
      fun a b => b.strength ≤ a.strength) ∧
    (detectSupportResistance s lookback threshold minTouches).resistance.length ≤ 5 ∧
    ∀ l ∈ (detectSupportResistance s lookback threshold minTouches).resistance,
      minTouches ≤ l.touches := by
  unfold detectSupportResistance
  by_cases h : (tailN s lookback).length < 20
  · simp [h]
  · rw [if_neg h]
    obtain ⟨s1, s2, s3⟩ := finalLevels_invariants minTouches
      ((tailN s lookback).map (·.low)) (mergeLevels threshold (pivotLowCandidates (tailN s lookback)))
    obtain ⟨r1, r2, r3⟩ := finalLevels_invariants minTouches
      ((tailN s lookback).map (·.high)) (mergeLevels threshold (pivotHighCandidates (tailN s lookback)))
    exact ⟨s1, s2, s3, r1, r2, r3⟩

/-- Witness for C6 at a 20-bar series producing one support and one
resistance level. -/
theorem supportResistance_output_invariants_witness :
    ((detectSupportResistance srSeries 100 0.02 2).support.Pairwise
      fun a b => b.strength ≤ a.strength) ∧
    (detectSupportResistance srSeries 100 0.02 2).support.length ≤ 5 ∧
    (∀ l ∈ (detectSupportResistance srSeries 100 0.02 2).support, 2 ≤ l.touches) ∧
    ((detectSupportResistance srSeries 100 0.02 2).resistance.Pairwise
      fun a b => b.strength ≤ a.strength) ∧
    (detectSupportResistance srSeries 100 0.02 2).resistance.length ≤ 5 ∧
    ∀ l ∈ (detectSupportResistance srSeries 100 0.02 2).resistance, 2 ≤ l.touches :=
  supportResistance_output_invariants srSeries 100 0.02 2

theorem mem_ascendingTrends (lows : List SwingPoint) (t : TrendLine)
    (ht : t ∈ ascendingTrends lows) : t.direction = .ascending ∧ 0 < t.slope := by
  unfold ascendingTrends at ht
  split at ht
  · obtain ⟨pair, hmem, hf⟩ := List.mem_filterMap.1 ht
    dsimp only at hf
    split at hf
    · split at hf
      · split at hf
        · obtain rfl := Option.some.inj hf
          rename_i hprice htime htouch
          exact ⟨rfl, div_pos (sub_pos.2 hprice) (by exact_mod_cast htime)⟩
        · exact absurd hf (by simp)
      · exact absurd hf (by simp)
    · exact absurd hf (by simp)
  · simp at ht

theorem mem_descendingTrends (highs : List SwingPoint) (t : TrendLine)
    (ht : t ∈ descendingTrends highs) : t.direction = .descending ∧ t.slope < 0 := by
  unfold descendingTrends at ht
  split at ht
  · obtain ⟨pair, hmem, hf⟩ := List.mem_filterMap.1 ht
    dsimp only at hf
    split at hf
    · split at hf
      · split at hf
        · obtain rfl := Option.some.inj hf
          rename_i hprice htime htouch
          exact ⟨rfl, div_neg_of_neg_of_pos (sub_neg.2 hprice) (by exact_mod_cast htime)⟩
        · exact absurd hf (by simp)
      · exact absurd hf (by simp)
    · exact absurd hf (by simp)
  · simp at ht

/-- C7: every trend line the detector returns has a direction label that
matches the sign of its slope — ascending lines have strictly positive
slope, descending lines strictly negative slope. -/
theorem trendline_direction_matches_slope (s : Series) (lookback : Nat)
    (t : TrendLine) :
    (t ∈ (detectTrendLines s lookback).ascending →
      t.direction = .ascending ∧ 0 < t.slope) ∧
    (t ∈ (detectTrendLines s lookback).descending →
      t.direction = .descending ∧ t.slope < 0) := by
  unfold detectTrendLines
  by_cases h : (tailN s lookback).length < 30
  · simp [h]
  · rw [if_neg h]
    refine ⟨fun ht => ?_, fun ht => ?_⟩
    · exact mem_ascendingTrends _ _
        ((List.mergeSort_perm _ _).mem_iff.1 (List.mem_of_mem_take ht))
    · exact mem_descendingTrends _ _
        ((List.mergeSort_perm _ _).mem_iff.1 (List.mem_of_mem_take ht))

/-- Witness for C7 at a 30-bar series producing one ascending trend line. -/
theorem trendline_direction_matches_slope_witness :
    trendWitnessLine ∈ (detectTrendLines trendSeries 100).ascending ∧
    (trendWitnessLine.direction = .ascending ∧ 0 < trendWitnessLine.slope) :=
  ⟨by with_unfolding_all decide,
   (trendline_direction_matches_slope trendSeries 100 trendWitnessLine).1
     (by with_unfolding_all decide)⟩

theorem lowVolGroups_min_length (lv : List Bool) :
    ∀ g ∈ lowVolGroups lv, 10 ≤ g.length := by
  have key : ∀ (is : List Nat) (st : List (List Nat) × List Nat),
      (∀ g ∈ st.1, 10 ≤ g.length) →
      ∀ g ∈ (is.foldl (groupStep lv) st).1, 10 ≤ g.length := by
    intro is
    induction is with
    | nil => intro st h; simpa using h
    | cons i is ih =>
        intro st h
        rw [List.foldl_cons]
        apply ih
        intro g hg
        unfold groupStep at hg
        split at hg
        · exact h g hg
        · dsimp only at hg
          split at hg
          · rcases List.mem_append.1 hg with h1 | h2
            · exact h g h1
            · rename_i hc
              rw [List.mem_singleton.1 h2]
              exact hc.2
          · exact h g hg
  intro g hg
  unfold lowVolGroups at hg
  dsimp only at hg
  split at hg
  · rcases List.mem_append.1 hg with h1 | h2
    · exact key _ _ (by simp) g h1
    · rename_i hc
      rw [List.mem_singleton.1 h2]
      exact hc.2
  · exact key _ _ (by simp) g hg

theorem mem_zonesFromGroups (df : List Bar) (threshold : ℚ)
    (groups : List (List Nat)) (z : Zone)
    (hz : z ∈ zonesFromGroups df threshold groups) :
    ∃ g ∈ groups, z.durationDays = g.length ∧ z.breakout = .unresolved ∧
      z.rangePct ≤ threshold * 100 := by
  obtain ⟨g, hg, hf⟩ := List.mem_filterMap.1 hz
  refine ⟨g, hg, ?_⟩
  dsimp only at hf
  split at hf
  · split at hf
    · rename_i hlen hr
      obtain rfl := Option.some.inj hf
      exact ⟨rfl, rfl, by linarith⟩
    · exact absurd hf (by simp)
  · exact absurd hf (by simp)

theorem classifyBreakout_fields (df : List Bar) (z : Zone) :
    (classifyBreakout df z).endIdx = z.endIdx ∧
    (classifyBreakout df z).support = z.support ∧
    (classifyBreakout df z).resistance = z.resistance ∧
    (classifyBreakout df z).rangePct = z.rangePct ∧
    (classifyBreakout df z).durationDays = z.durationDays := by
  unfold classifyBreakout
  split
  · dsimp only
    split
    · exact ⟨rfl, rfl, rfl, rfl, rfl⟩
    · split
      · exact ⟨rfl, rfl, rfl, rfl, rfl⟩
      · exact ⟨rfl, rfl, rfl, rfl, rfl⟩
  · exact ⟨rfl, rfl, rfl, rfl, rfl⟩

/-- C8: every consolidation zone the detector returns has range_pct at most
the configured range threshold (the stored range_pct is a percentage, the
threshold parameter a fraction: 0.03 is 3%) and duration_days at least 10,
for every low-volatility mask. -/
theorem consolidationZone_invariants (df : List Bar) (lv : List Bool)
    (threshold : ℚ) (z : Zone)
    (hz : z ∈ detectConsolidationZonesFrom df lv threshold) :
    z.rangePct ≤ threshold * 100 ∧ 10 ≤ z.durationDays := by
  unfold detectConsolidationZonesFrom at hz
  split at hz
  · simp at hz
  · obtain ⟨z0, hz0, rfl⟩ := List.mem_map.1 hz
    obtain ⟨g, hg, hdur, hbrk, hrng⟩ := mem_zonesFromGroups _ _ _ _ hz0
    obtain ⟨hE, hS, hR, hP, hD⟩ := classifyBreakout_fields df z0
    refine ⟨by rw [hP]; exact hrng, ?_⟩
    rw [hD, hdur]
    exact lowVolGroups_min_length lv g hg

/-- Witness for C8: the zone consSeries/consMask produce. -/
theorem consolidationZone_invariants_witness :
    consZone ∈ detectConsolidationZonesFrom consSeries consMask 0.03 ∧
    (consZone.rangePct ≤ 0.03 * 100 ∧ 10 ≤ consZone.durationDays) :=
  ⟨by with_unfolding_all decide,
   consolidationZone_invariants consSeries consMask 0.03 consZone
     (by with_unfolding_all decide)⟩

theorem close_gt_iff (l : List Bar) (hne : l ≠ []) (t : ℚ) :
    seriesMax (l.map (·.close)) > t ↔ ∃ b ∈ l, b.close > t := by
  show t < seriesMax _ ↔ _
  rw [seriesMax_gt_iff _ (by simpa using hne)]
  simp

theorem close_lt_iff (l : List Bar) (hne : l ≠ []) (t : ℚ) :
    seriesMin (l.map (·.close)) < t ↔ ∃ b ∈ l, b.close < t := by
  rw [seriesMin_lt_iff _ (by simpa using hne)]
  simp

/-- C3: for every consolidation zone (and any low-volatility mask), the
breakout is classified from the 5 bars immediately after the zone's end:
BULLISH exactly when some Close there exceeds resistance·1.02, otherwise
BEARISH exactly when some Close falls below support·0.98, otherwise
CONSOLIDATING; and when fewer than 5 bars follow the end the breakout is
UNRESOLVED. -/
theorem consolidationZone_breakout_classification (df : List Bar)
    (lv : List Bool) (threshold : ℚ) (z : Zone)
    (hz : z ∈ detectConsolidationZonesFrom df lv threshold) :
    (df.length ≤ z.endIdx + 5 → z.breakout = .unresolved) ∧
    (z.endIdx + 5 < df.length →
      ((z.breakout = .bullish ↔
        ∃ b ∈ (df.drop (z.endIdx + 1)).take 5, b.close > z.resistance * 1.02) ∧
       (z.breakout = .bearish ↔
        (¬∃ b ∈ (df.drop (z.endIdx + 1)).take 5, b.close > z.resistance * 1.02) ∧
        ∃ b ∈ (df.drop (z.endIdx + 1)).take 5, b.close < z.support * 0.98) ∧
       (z.breakout = .consolidating ↔
        (¬∃ b ∈ (df.drop (z.endIdx + 1)).take 5, b.close > z.resistance * 1.02) ∧
        ¬∃ b ∈ (df.drop (z.endIdx + 1)).take 5, b.close < z.support * 0.98))) := by
  unfold detectConsolidationZonesFrom at hz
  split at hz
  · simp at hz
  · obtain ⟨z0, hz0, rfl⟩ := List.mem_map.1 hz
    obtain ⟨g, hg, hdur, hbrk, hrng⟩ := mem_zonesFromGroups _ _ _ _ hz0
    obtain ⟨hE, hS, hR, hP, hD⟩ := classifyBreakout_fields df z0
    rw [hE, hS, hR]
    by_cases hl : z0.endIdx + 5 < df.length
    · have hne5 : (df.drop (z0.endIdx + 1)).take 5 ≠ [] := by
        have hlen5 : ((df.drop (z0.endIdx + 1)).take 5).length = 5 := by
          rw [List.length_take, List.length_drop]
          omega
        intro hnil
        rw [hnil] at hlen5
        simp at hlen5
      have hcls : (classifyBreakout df z0).breakout =
          if seriesMax (((df.drop (z0.endIdx + 1)).take 5).map (·.close)) >
              z0.resistance * 1.02 then
            Breakout.bullish
          else if seriesMin (((df.drop (z0.endIdx + 1)).take 5).map (·.close)) <
              z0.support * 0.98 then
            Breakout.bearish
          else Breakout.consolidating := by
        unfold classifyBreakout
        rw [if_pos hl]
        dsimp only
        split
        · rfl
        · split
          · rfl
          · rfl
      refine ⟨fun hcon => absurd (lt_of_lt_of_le hl hcon) (lt_irrefl _), fun _ => ?_⟩
      rw [hcls]
      by_cases hA : seriesMax (((df.drop (z0.endIdx + 1)).take 5).map (·.close)) >
          z0.resistance * 1.02
      · rw [if_pos hA]
        rw [close_gt_iff _ hne5] at hA
        simp [hA]
      · rw [if_neg hA]
        rw [close_gt_iff _ hne5] at hA
        by_cases hB : seriesMin (((df.drop (z0.endIdx + 1)).take 5).map (·.close)) <
            z0.support * 0.98
        · rw [if_pos hB]
          rw [close_lt_iff _ hne5] at hB
          simp [hA, hB]
        · rw [if_neg hB]
          rw [close_lt_iff _ hne5] at hB
          simp [hA, hB]
    · have hcls : (classifyBreakout df z0).breakout = z0.breakout := by
        unfold classifyBreakout
        rw [if_neg hl]
      exact ⟨fun _ => by rw [hcls, hbrk], fun hcon => absurd hcon hl⟩

/-- Witness for C3: the zone of consSeries/consMask is classified BULLISH
from the 5 bars (all closing at 110 > 100·1.02) that follow its end. -/
theorem consolidationZone_breakout_classification_witness :
    consZone ∈ detectConsolidationZonesFrom consSeries consMask 0.03 ∧
    consZone.breakout = .bullish :=
  ⟨by with_unfolding_all decide,
   ((consolidationZone_breakout_classification consSeries consMask 0.03 consZone
       (by with_unfolding_all decide)).2 (by decide)).1.mpr
     (by with_unfolding_all decide)⟩
